import Mathlib

/-!
Shallow embedding of the Cash.io bridge contracts and proofs about them.

Source files embedded here:
- packages/non-evm-contracts/near/src/lib.rs (NEAR contract, struct CashioBridge)
- packages/non-evm-contracts/solana/programs/cashio-bridge/src/lib.rs
  (Anchor program cashio_bridge)

Conventions of the embedding:
- Account ids (NEAR) are Strings; Solana pubkeys, 32-byte commitments,
  withdrawal hashes and 64-byte signature blobs are opaque Nat values
  (their interior is never inspected by the contracts).
- u64 / u128 quantities are Nat.  The contracts' checked arithmetic
  (a Rust panic aborts the transaction) means no wrapping semantics is
  observable in any reachable behaviour relevant to the claims.
- Every entry point is a pure function from the pre-state (plus the host
  inputs: caller, attached deposit, timestamp) to
  Except BridgeError post-state.  An error result models the host
  ledger's all-or-nothing rollback: the caller keeps the old state,
  so an error changes no state by construction.
- NEAR panic strings and Solana BridgeError codes are mapped to one
  shared error enumeration, named after the Solana error enum where a
  Solana name exists.
-/

/-- Error outcomes of the bridge operations.  Solana's BridgeError codes are
kept under their source names; NEAR's panic strings are mapped to the matching
code (for example "Commitment already used" to commitmentReused, "Only owner
can call this method" to notOwner, "Cannot remove: would go below threshold"
to insufficientGuardians). -/
inductive BridgeError where
  | bridgePaused
  | amountTooSmall
  | amountTooLarge
  | commitmentReused
  | withdrawalAlreadyProcessed
  | notOwner
  | notGuardian
  | guardianAlreadyExists
  | guardianNotFound
  | guardianNotActive
  | insufficientGuardians
  | thresholdTooHigh
  | insufficientSignatures
  | guardianCountUnderflow
deriving DecidableEq, Repr

namespace Near

/-- MIN_DEPOSIT constant of the NEAR contract: 0.01 NEAR in yoctoNEAR. -/
def MIN_DEPOSIT : Nat := 10000000000000000000000

/-- MAX_DEPOSIT constant of the NEAR contract: 100 NEAR in yoctoNEAR. -/
def MAX_DEPOSIT : Nat := 100000000000000000000000000

/-- The Deposit record of the NEAR contract. -/
structure Deposit where
  depositor : String
  commitment : String
  amount : Nat
  nonce : Nat
  timestamp : Nat
  processed : Bool
deriving DecidableEq, Repr

/-- The CashioBridge contract state.  The IterableSet / LookupSet fields are
modelled as lists used with set semantics (membership tests only; add_guardian
rejects duplicates, so guardians stays duplicate-free along any execution);
the IterableMap of deposits is an association list keyed by nonce. -/
structure State where
  owner_id : String
  hub_chain_id : String
  guardian_threshold : Nat
  guardians : List String
  processed_deposits : List String
  processed_withdrawals : List String
  deposits : List (Nat × Deposit)
  deposit_nonce : Nat
  total_deposited : Nat
  total_withdrawn : Nat
  is_paused : Bool
deriving DecidableEq, Repr

/-- CashioBridge::new - the init entry point. -/
def new (owner_id hub_chain_id : String) (guardian_threshold : Nat) : State :=
  { owner_id := owner_id
    hub_chain_id := hub_chain_id
    guardian_threshold := guardian_threshold
    guardians := []
    processed_deposits := []
    processed_withdrawals := []
    deposits := []
    deposit_nonce := 0
    total_deposited := 0
    total_withdrawn := 0
    is_paused := false }

/-- CashioBridge::add_guardian.  caller is env::predecessor_account_id(). -/
def add_guardian (s : State) (caller guardian_id : String) :
    Except BridgeError State :=
  if caller ≠ s.owner_id then .error .notOwner
  else if guardian_id ∈ s.guardians then .error .guardianAlreadyExists
  else .ok { s with guardians := guardian_id :: s.guardians }

/-- CashioBridge::remove_guardian. -/
def remove_guardian (s : State) (caller guardian_id : String) :
    Except BridgeError State :=
  if caller ≠ s.owner_id then .error .notOwner
  else if guardian_id ∉ s.guardians then .error .guardianNotFound
  else if ¬ s.guardian_threshold < s.guardians.length then
    .error .insufficientGuardians
  else .ok { s with guardians := s.guardians.erase guardian_id }

/-- CashioBridge::update_threshold. -/
def update_threshold (s : State) (caller : String) (new_threshold : Nat) :
    Except BridgeError State :=
  if caller ≠ s.owner_id then .error .notOwner
  else if ¬ new_threshold ≤ s.guardians.length then .error .thresholdTooHigh
  else .ok { s with guardian_threshold := new_threshold }

/-- CashioBridge::pause. -/
def pause (s : State) (caller : String) : Except BridgeError State :=
  if caller ≠ s.owner_id then .error .notOwner
  else .ok { s with is_paused := true }

/-- CashioBridge::unpause. -/
def unpause (s : State) (caller : String) : Except BridgeError State :=
  if caller ≠ s.owner_id then .error .notOwner
  else .ok { s with is_paused := false }

/-- CashioBridge::transfer_ownership. -/
def transfer_ownership (s : State) (caller new_owner : String) :
    Except BridgeError State :=
  if caller ≠ s.owner_id then .error .notOwner
  else .ok { s with owner_id := new_owner }

/-- CashioBridge::deposit.  attached is env::attached_deposit() in yoctoNEAR,
ts is env::block_timestamp().  Returns the assigned nonce together with the
post-state. -/
def deposit (s : State) (caller : String) (attached ts : Nat)
    (commitment : String) : Except BridgeError (Nat × State) :=
  if s.is_paused then .error .bridgePaused
  else if attached < MIN_DEPOSIT then .error .amountTooSmall
  else if MAX_DEPOSIT < attached then .error .amountTooLarge
  else if commitment ∈ s.processed_deposits then .error .commitmentReused
  else
    .ok (s.deposit_nonce,
      { s with
        processed_deposits := commitment :: s.processed_deposits
        deposit_nonce := s.deposit_nonce + 1
        total_deposited := s.total_deposited + attached
        deposits := (s.deposit_nonce,
          { depositor := caller
            commitment := commitment
            amount := attached
            nonce := s.deposit_nonce
            timestamp := ts
            processed := false }) :: s.deposits })

/-- CashioBridge::process_withdrawal.  The final Promise::transfer to the
recipient is the external value-transfer collaborator and is not part of the
ledger state. -/
def process_withdrawal (s : State) (caller withdrawal_hash recipient : String)
    (amount : Nat) : Except BridgeError State :=
  if s.is_paused then .error .bridgePaused
  else if caller ∉ s.guardians then .error .notGuardian
  else if withdrawal_hash ∈ s.processed_withdrawals then
    .error .withdrawalAlreadyProcessed
  else
    .ok { s with
      processed_withdrawals := withdrawal_hash :: s.processed_withdrawals
      total_withdrawn := s.total_withdrawn + amount }

/-- CashioBridge::get_deposit view function. -/
def get_deposit (s : State) (nonce : Nat) : Option Deposit :=
  s.deposits.lookup nonce

/-- One call to any mutating entry point of the NEAR contract, with all host
inputs (caller, attached deposit, timestamp) made explicit. -/
inductive Action where
  | addGuardian (caller guardian_id : String)
  | removeGuardian (caller guardian_id : String)
  | updateThreshold (caller : String) (new_threshold : Nat)
  | doPause (caller : String)
  | doUnpause (caller : String)
  | transferOwnership (caller new_owner : String)
  | doDeposit (caller : String) (attached ts : Nat) (commitment : String)
  | processWithdrawal (caller withdrawal_hash recipient : String) (amount : Nat)
deriving DecidableEq, Repr

/-- Dispatch one action.  The Option Nat is the nonce a successful deposit
returns; every other entry point returns no nonce. -/
def step (s : State) : Action → Except BridgeError (State × Option Nat)
  | .addGuardian c g =>
    match add_guardian s c g with
    | .error e => .error e
    | .ok t => .ok (t, none)
  | .removeGuardian c g =>
    match remove_guardian s c g with
    | .error e => .error e
    | .ok t => .ok (t, none)
  | .updateThreshold c n =>
    match update_threshold s c n with
    | .error e => .error e
    | .ok t => .ok (t, none)
  | .doPause c =>
    match pause s c with
    | .error e => .error e
    | .ok t => .ok (t, none)
  | .doUnpause c =>
    match unpause s c with
    | .error e => .error e
    | .ok t => .ok (t, none)
  | .transferOwnership c o =>
    match transfer_ownership s c o with
    | .error e => .error e
    | .ok t => .ok (t, none)
  | .doDeposit c att ts cm =>
    match deposit s c att ts cm with
    | .error e => .error e
    | .ok p => .ok (p.2, some p.1)
  | .processWithdrawal c h r a =>
    match process_withdrawal s c h r a with
    | .error e => .error e
    | .ok t => .ok (t, none)

/-- Run a call sequence against the contract.  A failed call rolls back (the
state is kept); the second component collects, in call order, the nonces
assigned by the successful deposits. -/
def run (s : State) : List Action → State × List Nat
  | [] => (s, [])
  | a :: rest =>
    match step s a with
    | .error _ => run s rest
    | .ok (t, none) => run t rest
    | .ok (t, some n) =>
      let p := run t rest
      (p.1, n :: p.2)

/-- States of the NEAR contract reachable from initialization by some call
sequence. -/
def Reachable (s : State) : Prop :=
  ∃ o h th acts, (run (new o h th) acts).1 = s

/-- Journal-key invariant: every nonce stored in the deposit journal is below
the current nonce counter. -/
def NonceBound (s : State) : Prop :=
  ∀ p ∈ s.deposits, p.1 < s.deposit_nonce

end Near

namespace Sol

/-- MIN_DEPOSIT constant of the Solana program: 0.01 SOL in lamports. -/
def MIN_DEPOSIT : Nat := 10000000

/-- MAX_DEPOSIT constant of the Solana program: 100 SOL in lamports. -/
def MAX_DEPOSIT : Nat := 100000000000

/-- The BridgeState account of the Solana program. -/
structure BridgeState where
  authority : Nat
  hub_chain_id : Nat
  guardian_threshold : Nat
  guardian_count : Nat
  deposit_nonce : Nat
  total_deposited : Nat
  total_withdrawn : Nat
  is_paused : Bool
deriving DecidableEq, Repr

/-- A Guardian account (PDA per guardian pubkey). -/
structure Guardian where
  pubkey : Nat
  is_active : Bool
  added_at : Nat
deriving DecidableEq, Repr

/-- A Deposit account (PDA per deposit nonce). -/
structure Deposit where
  depositor : Nat
  commitment : Nat
  amount : Nat
  nonce : Nat
  timestamp : Nat
  processed : Bool
deriving DecidableEq, Repr

/-- A TokenDeposit account (PDA per deposit nonce). -/
structure TokenDeposit where
  depositor : Nat
  mint : Nat
  commitment : Nat
  amount : Nat
  nonce : Nat
  timestamp : Nat
  processed : Bool
deriving DecidableEq, Repr

/-- A Withdrawal account (PDA per withdrawal hash). -/
structure Withdrawal where
  withdrawal_hash : Nat
  recipient : Nat
  amount : Nat
  processed : Bool
  timestamp : Nat
deriving DecidableEq, Repr

/-- The structured events the program emits with emit!.  Each event carries
exactly the fields the source event struct carries. -/
inductive Event where
  | depositEvent (depositor commitment amount nonce timestamp : Nat)
  | tokenDepositEvent (depositor mint commitment amount nonce timestamp : Nat)
  | withdrawalEvent (withdrawal_hash recipient amount timestamp : Nat)
  | guardianAdded (guardian added_by timestamp : Nat)
  | guardianRemoved (guardian removed_by timestamp : Nat)
  | thresholdUpdated (old_threshold new_threshold timestamp : Nat)
deriving DecidableEq, Repr

/-- Whole on-chain state of one deployment of the program: the singleton
BridgeState PDA plus every PDA account the instructions create, each account
family as an association list keyed by its PDA seed (guardian pubkey, deposit
nonce, withdrawal hash), plus the ordered log of emitted events. -/
structure State where
  bridge : BridgeState
  guardians : List (Nat × Guardian)
  deposits : List (Nat × Deposit)
  token_deposits : List (Nat × TokenDeposit)
  withdrawals : List (Nat × Withdrawal)
  events : List Event
deriving DecidableEq, Repr

/-- The initialize instruction.  Anchor's init zeroes the fresh BridgeState
account, so the fields the handler does not assign (guardian_count) start
at 0. -/
def init_bridge (authority hub_chain_id guardian_threshold : Nat) : State :=
  { bridge :=
      { authority := authority
        hub_chain_id := hub_chain_id
        guardian_threshold := guardian_threshold
        guardian_count := 0
        deposit_nonce := 0
        total_deposited := 0
        total_withdrawn := 0
        is_paused := false }
    guardians := []
    deposits := []
    token_deposits := []
    withdrawals := []
    events := [] }

/-- The add_guardian instruction.  The ManageGuardian context requires the
caller to sign as the bridge authority (has_one = authority); the handler
activates the guardian account and increments guardian_count. -/
def add_guardian (s : State) (caller guardian_pubkey ts : Nat) :
    Except BridgeError State :=
  if caller ≠ s.bridge.authority then .error .notOwner
  else
    .ok { s with
      guardians := (guardian_pubkey,
        { pubkey := guardian_pubkey, is_active := true, added_at := ts })
        :: s.guardians
      bridge := { s.bridge with
        guardian_count := s.bridge.guardian_count + 1 }
      events := s.events ++ [.guardianAdded guardian_pubkey caller ts] }

/-- The remove_guardian instruction.  init_if_needed materializes a zeroed
(hence inactive) Guardian account when none exists, so a missing account is
rejected by the is_active check; the u64 decrement of guardian_count aborts
the transaction on underflow. -/
def remove_guardian (s : State) (caller guardian_pubkey ts : Nat) :
    Except BridgeError State :=
  if caller ≠ s.bridge.authority then .error .notOwner
  else
    match s.guardians.lookup guardian_pubkey with
    | none => .error .guardianNotActive
    | some g =>
      if ¬ g.is_active then .error .guardianNotActive
      else if s.bridge.guardian_count = 0 then .error .guardianCountUnderflow
      else if ¬ s.bridge.guardian_threshold ≤ s.bridge.guardian_count - 1 then
        .error .insufficientGuardians
      else
        .ok { s with
          guardians := (guardian_pubkey, { g with is_active := false })
            :: s.guardians
          bridge := { s.bridge with
            guardian_count := s.bridge.guardian_count - 1 }
          events := s.events ++ [.guardianRemoved g.pubkey caller ts] }

/-- The deposit_sol instruction.  The system-program transfer of the lamports
into the vault is the external value-movement collaborator; its failure aborts
the whole instruction, so a successful run of this function models a deposit
whose transfer succeeded.  Note the handler checks no commitment set: the
Deposit PDA is keyed by the nonce, not by the commitment. -/
def deposit_sol (s : State) (depositor amount commitment ts : Nat) :
    Except BridgeError State :=
  if s.bridge.is_paused then .error .bridgePaused
  else if amount < MIN_DEPOSIT then .error .amountTooSmall
  else if MAX_DEPOSIT < amount then .error .amountTooLarge
  else
    .ok { s with
      deposits := (s.bridge.deposit_nonce,
        { depositor := depositor
          commitment := commitment
          amount := amount
          nonce := s.bridge.deposit_nonce
          timestamp := ts
          processed := false }) :: s.deposits
      bridge := { s.bridge with
        deposit_nonce := s.bridge.deposit_nonce + 1
        total_deposited := s.bridge.total_deposited + amount }
      events := s.events ++
        [.depositEvent depositor commitment amount s.bridge.deposit_nonce ts] }

/-- The deposit_token instruction.  As in the source: only the lower amount
bound is checked, and neither total_deposited nor any commitment set is
touched; only the nonce advances. -/
def deposit_token (s : State) (depositor mint amount commitment ts : Nat) :
    Except BridgeError State :=
  if s.bridge.is_paused then .error .bridgePaused
  else if amount < MIN_DEPOSIT then .error .amountTooSmall
  else
    .ok { s with
      token_deposits := (s.bridge.deposit_nonce,
        { depositor := depositor
          mint := mint
          commitment := commitment
          amount := amount
          nonce := s.bridge.deposit_nonce
          timestamp := ts
          processed := false }) :: s.token_deposits
      bridge := { s.bridge with
        deposit_nonce := s.bridge.deposit_nonce + 1 }
      events := s.events ++
        [.tokenDepositEvent depositor mint commitment amount
          s.bridge.deposit_nonce ts] }

/-- The process_withdrawal instruction.  guardian_signatures are the opaque
64-byte blobs of the source; the handler counts them against the threshold
and, per the explicit TODO in the source, performs no signature verification.
The payer may be any signer.  A Withdrawal PDA keyed by the hash exists
exactly when an earlier call processed that hash (the handler sets
processed to true and Anchor's init refuses an existing account), which is
the replay rejection modelled here; the lamport movement from the vault is
the external value-transfer collaborator. -/
def process_withdrawal (s : State)
    (withdrawal_hash recipient amount ts : Nat)
    (guardian_signatures : List Nat) : Except BridgeError State :=
  if s.bridge.is_paused then .error .bridgePaused
  else if guardian_signatures.length < s.bridge.guardian_threshold then
    .error .insufficientSignatures
  else if (s.withdrawals.lookup withdrawal_hash).isSome then
    .error .withdrawalAlreadyProcessed
  else
    .ok { s with
      withdrawals := (withdrawal_hash,
        { withdrawal_hash := withdrawal_hash
          recipient := recipient
          amount := amount
          processed := true
          timestamp := ts }) :: s.withdrawals
      bridge := { s.bridge with
        total_withdrawn := s.bridge.total_withdrawn + amount }
      events := s.events ++
        [.withdrawalEvent withdrawal_hash recipient amount ts] }

/-- The pause instruction (AdminAction context: caller must sign as the
bridge authority). -/
def pause (s : State) (caller : Nat) : Except BridgeError State :=
  if caller ≠ s.bridge.authority then .error .notOwner
  else .ok { s with bridge := { s.bridge with is_paused := true } }

/-- The unpause instruction. -/
def unpause (s : State) (caller : Nat) : Except BridgeError State :=
  if caller ≠ s.bridge.authority then .error .notOwner
  else .ok { s with bridge := { s.bridge with is_paused := false } }

/-- The update_threshold instruction.  Exactly as in the source, the handler
assigns bridge.guardian_threshold = new_threshold before building the
ThresholdUpdated event from bridge.guardian_threshold, so the event's old
field is read from the already-updated state. -/
def update_threshold (s : State) (caller new_threshold ts : Nat) :
    Except BridgeError State :=
  if caller ≠ s.bridge.authority then .error .notOwner
  else if ¬ new_threshold ≤ s.bridge.guardian_count then
    .error .thresholdTooHigh
  else
    let b := { s.bridge with guardian_threshold := new_threshold }
    .ok { s with
      bridge := b
      events := s.events ++
        [.thresholdUpdated b.guardian_threshold new_threshold ts] }

/-- One call to any instruction of the Solana program, host inputs explicit. -/
inductive Action where
  | addGuardian (caller guardian_pubkey ts : Nat)
  | removeGuardian (caller guardian_pubkey ts : Nat)
  | depositSol (depositor amount commitment ts : Nat)
  | depositToken (depositor mint amount commitment ts : Nat)
  | processWithdrawal (withdrawal_hash recipient amount ts : Nat)
      (guardian_signatures : List Nat)
  | doPause (caller : Nat)
  | doUnpause (caller : Nat)
  | updateThreshold (caller new_threshold ts : Nat)
deriving DecidableEq, Repr

/-- Dispatch one instruction.  The Option Nat is the nonce a successful
deposit_sol or deposit_token records in its deposit account. -/
def step (s : State) : Action → Except BridgeError (State × Option Nat)
  | .addGuardian c g ts =>
    match add_guardian s c g ts with
    | .error e => .error e
    | .ok t => .ok (t, none)
  | .removeGuardian c g ts =>
    match remove_guardian s c g ts with
    | .error e => .error e
    | .ok t => .ok (t, none)
  | .depositSol d a cm ts =>
    match deposit_sol s d a cm ts with
    | .error e => .error e
    | .ok t => .ok (t, some s.bridge.deposit_nonce)
  | .depositToken d m a cm ts =>
    match deposit_token s d m a cm ts with
    | .error e => .error e
    | .ok t => .ok (t, some s.bridge.deposit_nonce)
  | .processWithdrawal h r a ts sigs =>
    match process_withdrawal s h r a ts sigs with
    | .error e => .error e
    | .ok t => .ok (t, none)
  | .doPause c =>
    match pause s c with
    | .error e => .error e
    | .ok t => .ok (t, none)
  | .doUnpause c =>
    match unpause s c with
    | .error e => .error e
    | .ok t => .ok (t, none)
  | .updateThreshold c n ts =>
    match update_threshold s c n ts with
    | .error e => .error e
    | .ok t => .ok (t, none)

/-- Run an instruction sequence; a failed instruction rolls back.  The second
component collects, in call order, the nonces assigned by the successful
deposits (SOL and token paths share the one counter). -/
def run (s : State) : List Action → State × List Nat
  | [] => (s, [])
  | a :: rest =>
    match step s a with
    | .error _ => run s rest
    | .ok (t, none) => run t rest
    | .ok (t, some n) =>
      let p := run t rest
      (p.1, n :: p.2)

/-- A copy of a Solana state with the pause flag forced to a given value
(used to compare behaviour across the two pause states). -/
def set_paused (s : State) (b : Bool) : State :=
  { s with bridge := { s.bridge with is_paused := b } }

end Sol

/-- Concrete scenario: two deposit_sol calls carrying the identical
commitment 42, each of MIN_DEPOSIT lamports, on a freshly initialized
unpaused bridge. -/
def sol_double_deposit_same_commitment : Except BridgeError Sol.State :=
  (Sol.deposit_sol (Sol.init_bridge 7 9 1) 1 Sol.MIN_DEPOSIT 42 100).bind
    (fun s1 => Sol.deposit_sol s1 2 Sol.MIN_DEPOSIT 42 101)

/-- Concrete scenario: initialize with threshold 0, add one guardian, then
raise the threshold to 1. -/
def sol_threshold_update_run : Except BridgeError Sol.State :=
  (Sol.add_guardian (Sol.init_bridge 7 9 0) 7 21 50).bind
    (fun s1 => Sol.update_threshold s1 7 1 60)

/-- Concrete NEAR state: fresh bridge with owner o, threshold 1 and the one
guardian g. -/
def near_guarded : Near.State :=
  { Near.new "o" "h" 1 with guardians := ["g"] }

/-- The state near_guarded after guardian g processes the withdrawal claim w
of amount 5. -/
def near_guarded_after : Near.State :=
  { near_guarded with
    processed_withdrawals := ["w"]
    total_withdrawn := 5 }

/-- The fresh NEAR bridge after depositor d deposits MIN_DEPOSIT under
commitment c1 at timestamp 99. -/
def near_after_deposit : Near.State :=
  { Near.new "o" "h" 1 with
    processed_deposits := ["c1"]
    deposit_nonce := 1
    total_deposited := Near.MIN_DEPOSIT
    deposits := [(0,
      { depositor := "d", commitment := "c1", amount := Near.MIN_DEPOSIT,
        nonce := 0, timestamp := 99, processed := false })] }

namespace Near

theorem near_add_guardian_ok {s : State} {c g : String} {t : State}
    (h : add_guardian s c g = .ok t) :
    t = { s with guardians := g :: s.guardians } ∧ c = s.owner_id ∧
      g ∉ s.guardians := by
  unfold add_guardian at h
  split_ifs at h with h1 h2
  simp only [Except.ok.injEq] at h
  exact ⟨h.symm, not_not.mp h1, h2⟩

theorem near_remove_guardian_ok {s : State} {c g : String} {t : State}
    (h : remove_guardian s c g = .ok t) :
    t = { s with guardians := s.guardians.erase g } ∧ c = s.owner_id ∧
      g ∈ s.guardians ∧ s.guardian_threshold < s.guardians.length := by
  unfold remove_guardian at h
  split_ifs at h with h1 h2 h3
  simp only [Except.ok.injEq] at h
  exact ⟨h.symm, not_not.mp h1, h2, h3⟩

theorem near_update_threshold_ok {s : State} {c : String} {n : Nat} {t : State}
    (h : update_threshold s c n = .ok t) :
    t = { s with guardian_threshold := n } ∧ c = s.owner_id ∧
      n ≤ s.guardians.length := by
  unfold update_threshold at h
  split_ifs at h with h1 h2
  simp only [Except.ok.injEq] at h
  exact ⟨h.symm, not_not.mp h1, h2⟩

theorem near_pause_ok {s : State} {c : String} {t : State}
    (h : pause s c = .ok t) :
    t = { s with is_paused := true } ∧ c = s.owner_id := by
  unfold pause at h
  split_ifs at h with h1
  simp only [Except.ok.injEq] at h
  exact ⟨h.symm, not_not.mp h1⟩

theorem near_unpause_ok {s : State} {c : String} {t : State}
    (h : unpause s c = .ok t) :
    t = { s with is_paused := false } ∧ c = s.owner_id := by
  unfold unpause at h
  split_ifs at h with h1
  simp only [Except.ok.injEq] at h
  exact ⟨h.symm, not_not.mp h1⟩

theorem near_transfer_ownership_ok {s : State} {c o : String} {t : State}
    (h : transfer_ownership s c o = .ok t) :
    t = { s with owner_id := o } ∧ c = s.owner_id := by
  unfold transfer_ownership at h
  split_ifs at h with h1
  simp only [Except.ok.injEq] at h
  exact ⟨h.symm, not_not.mp h1⟩

theorem near_deposit_ok {s : State} {c : String} {att ts : Nat} {cm : String}
    {n : Nat} {t : State} (h : deposit s c att ts cm = .ok (n, t)) :
    n = s.deposit_nonce ∧
    t = { s with
      processed_deposits := cm :: s.processed_deposits
      deposit_nonce := s.deposit_nonce + 1
      total_deposited := s.total_deposited + att
      deposits := (s.deposit_nonce,
        { depositor := c, commitment := cm, amount := att,
          nonce := s.deposit_nonce, timestamp := ts, processed := false })
        :: s.deposits } ∧
    s.is_paused = false ∧ MIN_DEPOSIT ≤ att ∧ att ≤ MAX_DEPOSIT ∧
    cm ∉ s.processed_deposits := by
  unfold deposit at h
  split_ifs at h with h1 h2 h3 h4
  simp only [Except.ok.injEq, Prod.mk.injEq] at h
  refine ⟨h.1.symm, h.2.symm, by simpa using h1, by omega, by omega, h4⟩

theorem near_process_withdrawal_ok {s : State} {c w r : String} {a : Nat}
    {t : State} (h : process_withdrawal s c w r a = .ok t) :
    t = { s with
      processed_withdrawals := w :: s.processed_withdrawals
      total_withdrawn := s.total_withdrawn + a } ∧
    s.is_paused = false ∧ c ∈ s.guardians ∧
    w ∉ s.processed_withdrawals := by
  unfold process_withdrawal at h
  split_ifs at h with h1 h2 h3
  simp only [Except.ok.injEq] at h
  exact ⟨h.symm, by simpa using h1, h2, h3⟩

/-- Every fact about one successful call needed by the claims, collected in
one place: how the nonce counter and nonce result behave, preservation of
the quorum inequality, monotonicity of the aggregate counters and of the
replay sets, and the exact shape of the deposit journal update. -/
theorem near_step_ok {s : State} {a : Action} {t : State} {r : Option Nat}
    (h : step s a = .ok (t, r)) :
    ((r = some s.deposit_nonce ∧ t.deposit_nonce = s.deposit_nonce + 1) ∨
      (r = none ∧ t.deposit_nonce = s.deposit_nonce)) ∧
    (s.guardian_threshold ≤ s.guardians.length →
      t.guardian_threshold ≤ t.guardians.length) ∧
    s.total_deposited ≤ t.total_deposited ∧
    s.total_withdrawn ≤ t.total_withdrawn ∧
    (∀ x, x ∈ s.processed_withdrawals → x ∈ t.processed_withdrawals) ∧
    (t.deposits = s.deposits ∨
      (∃ d, t.deposits = (s.deposit_nonce, d) :: s.deposits) ∧
        t.deposit_nonce = s.deposit_nonce + 1) := by
  cases a with
  | addGuardian c g =>
    simp only [step] at h
    split at h
    · exact Except.noConfusion h
    next u heq =>
      simp only [Except.ok.injEq, Prod.mk.injEq] at h
      obtain ⟨hu, hg, _⟩ := near_add_guardian_ok heq
      subst hu
      obtain ⟨ht, hr⟩ := h
      subst ht
      subst hr
      refine ⟨Or.inr ⟨rfl, rfl⟩, ?_, le_refl _, le_refl _,
        fun x hx => hx, Or.inl rfl⟩
      intro hle
      simp only [List.length_cons]
      omega
  | removeGuardian c g =>
    simp only [step] at h
    split at h
    · exact Except.noConfusion h
    next u heq =>
      simp only [Except.ok.injEq, Prod.mk.injEq] at h
      obtain ⟨hu, _, hmem, hlt⟩ := near_remove_guardian_ok heq
      subst hu
      obtain ⟨ht, hr⟩ := h
      subst ht
      subst hr
      refine ⟨Or.inr ⟨rfl, rfl⟩, ?_, le_refl _, le_refl _,
        fun x hx => hx, Or.inl rfl⟩
      intro _
      have := List.length_erase_of_mem hmem
      simp only [this]
      omega
  | updateThreshold c n =>
    simp only [step] at h
    split at h
    · exact Except.noConfusion h
    next u heq =>
      simp only [Except.ok.injEq, Prod.mk.injEq] at h
      obtain ⟨hu, _, hle⟩ := near_update_threshold_ok heq
      subst hu
      obtain ⟨ht, hr⟩ := h
      subst ht
      subst hr
      exact ⟨Or.inr ⟨rfl, rfl⟩, fun _ => hle, le_refl _, le_refl _,
        fun x hx => hx, Or.inl rfl⟩
  | doPause c =>
    simp only [step] at h
    split at h
    · exact Except.noConfusion h
    next u heq =>
      simp only [Except.ok.injEq, Prod.mk.injEq] at h
      obtain ⟨hu, _⟩ := near_pause_ok heq
      subst hu
      obtain ⟨ht, hr⟩ := h
      subst ht
      subst hr
      exact ⟨Or.inr ⟨rfl, rfl⟩, fun hle => hle, le_refl _, le_refl _,
        fun x hx => hx, Or.inl rfl⟩
  | doUnpause c =>
    simp only [step] at h
    split at h
    · exact Except.noConfusion h
    next u heq =>
      simp only [Except.ok.injEq, Prod.mk.injEq] at h
      obtain ⟨hu, _⟩ := near_unpause_ok heq
      subst hu
      obtain ⟨ht, hr⟩ := h
      subst ht
      subst hr
      exact ⟨Or.inr ⟨rfl, rfl⟩, fun hle => hle, le_refl _, le_refl _,
        fun x hx => hx, Or.inl rfl⟩
  | transferOwnership c o =>
    simp only [step] at h
    split at h
    · exact Except.noConfusion h
    next u heq =>
      simp only [Except.ok.injEq, Prod.mk.injEq] at h
      obtain ⟨hu, _⟩ := near_transfer_ownership_ok heq
      subst hu
      obtain ⟨ht, hr⟩ := h
      subst ht
      subst hr
      exact ⟨Or.inr ⟨rfl, rfl⟩, fun hle => hle, le_refl _, le_refl _,
        fun x hx => hx, Or.inl rfl⟩
  | doDeposit c att ts cm =>
    simp only [step] at h
    split at h
    · exact Except.noConfusion h
    next u heq =>
      obtain ⟨n0, t0⟩ := u
      simp only [Except.ok.injEq, Prod.mk.injEq] at h
      obtain ⟨hn, hu, _, _, _, _⟩ := near_deposit_ok heq
      subst hn
      subst hu
      obtain ⟨ht, hr⟩ := h
      subst ht
      subst hr
      refine ⟨Or.inl ⟨rfl, rfl⟩, fun hle => hle, Nat.le_add_right _ _,
        le_refl _, fun x hx => hx, Or.inr ⟨⟨_, rfl⟩, rfl⟩⟩
  | processWithdrawal c w rc amt =>
    simp only [step] at h
    split at h
    · exact Except.noConfusion h
    next u heq =>
      simp only [Except.ok.injEq, Prod.mk.injEq] at h
      obtain ⟨hu, _, _, _⟩ := near_process_withdrawal_ok heq
      subst hu
      obtain ⟨ht, hr⟩ := h
      subst ht
      subst hr
      exact ⟨Or.inr ⟨rfl, rfl⟩, fun hle => hle, le_refl _,
        Nat.le_add_right _ _, fun x hx => List.mem_cons_of_mem _ hx,
        Or.inl rfl⟩

theorem nonceBound_new (o h : String) (th : Nat) : NonceBound (new o h th) := by
  intro p hp
  simp [new] at hp

theorem step_nonceBound {s : State} {a : Action} {t : State} {r : Option Nat}
    (h : step s a = .ok (t, r)) (hb : NonceBound s) : NonceBound t := by
  obtain ⟨hnonce, -, -, -, -, hdep⟩ := near_step_ok h
  have hmono : s.deposit_nonce ≤ t.deposit_nonce := by
    rcases hnonce with ⟨-, h2⟩ | ⟨-, h2⟩ <;> omega
  intro p hp
  rcases hdep with hsame | ⟨⟨d, hcons⟩, hone⟩
  · have := hb p (hsame ▸ hp)
    omega
  · rw [hcons] at hp
    rcases List.mem_cons.mp hp with hhead | htail
    · subst hhead
      omega
    · have := hb p htail
      omega

theorem step_lookup {s : State} {a : Action} {t : State} {r : Option Nat}
    (h : step s a = .ok (t, r)) {n : Nat} (hn : n < s.deposit_nonce) :
    t.deposits.lookup n = s.deposits.lookup n := by
  obtain ⟨-, -, -, -, -, hdep⟩ := near_step_ok h
  rcases hdep with hsame | ⟨⟨d, hcons⟩, -⟩
  · rw [hsame]
  · rw [hcons]
    have hbeq : (n == s.deposit_nonce) = false :=
      beq_eq_false_iff_ne.mpr (by omega)
    simp [List.lookup, hbeq]

/-- Along any run: the journal-key invariant is preserved, the nonce counter
never decreases, journal entries below the starting counter are never touched,
and the processed-withdrawal replay set only grows. -/
theorem run_invariants (acts : List Action) :
    ∀ s : State, NonceBound s →
      NonceBound (run s acts).1 ∧
      s.deposit_nonce ≤ (run s acts).1.deposit_nonce ∧
      (∀ n, n < s.deposit_nonce →
        ((run s acts).1).deposits.lookup n = s.deposits.lookup n) ∧
      (∀ x, x ∈ s.processed_withdrawals →
        x ∈ ((run s acts).1).processed_withdrawals) := by
  induction acts with
  | nil =>
    intro s hb
    exact ⟨hb, le_refl _, fun n _ => rfl, fun x hx => hx⟩
  | cons a rest ih =>
    intro s hb
    cases hstep : step s a with
    | error e =>
      simp only [run, hstep]
      exact ih s hb
    | ok p =>
      obtain ⟨t, r⟩ := p
      obtain ⟨hnonce, -, -, -, hw, -⟩ := near_step_ok hstep
      have hb2 := step_nonceBound hstep hb
      have hmono : s.deposit_nonce ≤ t.deposit_nonce := by
        rcases hnonce with ⟨-, h2⟩ | ⟨-, h2⟩ <;> omega
      have hrest := ih t hb2
      cases r with
      | none =>
        simp only [run, hstep]
        refine ⟨hrest.1, by omega, ?_, ?_⟩
        · intro n hn
          rw [hrest.2.2.1 n (by omega), step_lookup hstep hn]
        · intro x hx
          exact hrest.2.2.2 x (hw x hx)
      | some n0 =>
        simp only [run, hstep]
        refine ⟨hrest.1, by omega, ?_, ?_⟩
        · intro n hn
          rw [hrest.2.2.1 n (by omega), step_lookup hstep hn]
        · intro x hx
          exact hrest.2.2.2 x (hw x hx)

theorem reachable_nonceBound {s : State} (h : Reachable s) : NonceBound s := by
  obtain ⟨o, hb, th, acts, hrun⟩ := h
  rw [← hrun]
  exact (run_invariants acts (new o hb th) (nonceBound_new o hb th)).1

theorem lookup_none_of_bound (l : List (Nat × Deposit)) (k m : Nat)
    (hb : ∀ p ∈ l, p.1 < k) (hm : k ≤ m) : l.lookup m = none := by
  induction l with
  | nil => rfl
  | cons p l ihl =>
    have hp := hb p (List.mem_cons_self p l)
    have hbeq : (m == p.1) = false := beq_eq_false_iff_ne.mpr (by omega)
    obtain ⟨q, d⟩ := p
    simp only [List.lookup, hbeq]
    exact ihl (fun q hq => hb q (List.mem_cons_of_mem _ hq))

/-- In any state satisfying the journal-key invariant, get_deposit returns
none for every nonce at or above the counter. -/
theorem nonceBound_get_deposit_none {s : State} (hb : NonceBound s) {m : Nat}
    (hm : s.deposit_nonce ≤ m) : get_deposit s m = none :=
  lookup_none_of_bound s.deposits s.deposit_nonce m hb hm

/-- The nonces collected along a run are the dense range starting at the
initial counter value, and the counter advances by exactly their number. -/
theorem near_run_nonce_spec (acts : List Action) :
    ∀ s : State,
      (run s acts).1.deposit_nonce =
        s.deposit_nonce + (run s acts).2.length ∧
      (run s acts).2 = List.range' s.deposit_nonce (run s acts).2.length := by
  induction acts with
  | nil =>
    intro s
    simp [run]
  | cons a rest ih =>
    intro s
    cases hstep : step s a with
    | error e =>
      simp only [run, hstep]
      exact ih s
    | ok p =>
      obtain ⟨t, r⟩ := p
      obtain ⟨hnonce, -⟩ := near_step_ok hstep
      cases r with
      | none =>
        obtain ⟨-, ht⟩ := hnonce.resolve_left (by rintro ⟨h1, -⟩; cases h1)
        simp only [run, hstep]
        constructor
        · rw [(ih t).1, ht]
        · conv_lhs => rw [(ih t).2]
          rw [ht]
      | some n0 =>
        obtain ⟨h1, ht⟩ := hnonce.resolve_right (by rintro ⟨h1, -⟩; cases h1)
        obtain rfl : n0 = s.deposit_nonce := by injection h1
        simp only [run, hstep, List.length_cons]
        constructor
        · rw [(ih t).1, ht]
          omega
        · rw [List.range'_succ]
          congr 1
          conv_lhs => rw [(ih t).2]
          rw [ht]

end Near

namespace Sol

theorem deposit_sol_ok {s : State} {d a cm ts : Nat} {t : State}
    (h : deposit_sol s d a cm ts = .ok t) :
    t = { s with
      deposits := (s.bridge.deposit_nonce,
        { depositor := d, commitment := cm, amount := a,
          nonce := s.bridge.deposit_nonce, timestamp := ts,
          processed := false }) :: s.deposits
      bridge := { s.bridge with
        deposit_nonce := s.bridge.deposit_nonce + 1
        total_deposited := s.bridge.total_deposited + a }
      events := s.events ++
        [.depositEvent d cm a s.bridge.deposit_nonce ts] } ∧
    s.bridge.is_paused = false ∧ MIN_DEPOSIT ≤ a ∧ a ≤ MAX_DEPOSIT := by
  unfold deposit_sol at h
  split_ifs at h with h1 h2 h3
  simp only [Except.ok.injEq] at h
  exact ⟨h.symm, by simpa using h1, by omega, by omega⟩

theorem deposit_token_ok {s : State} {d m a cm ts : Nat} {t : State}
    (h : deposit_token s d m a cm ts = .ok t) :
    t = { s with
      token_deposits := (s.bridge.deposit_nonce,
        { depositor := d, mint := m, commitment := cm, amount := a,
          nonce := s.bridge.deposit_nonce, timestamp := ts,
          processed := false }) :: s.token_deposits
      bridge := { s.bridge with
        deposit_nonce := s.bridge.deposit_nonce + 1 }
      events := s.events ++
        [.tokenDepositEvent d m cm a s.bridge.deposit_nonce ts] } ∧
    s.bridge.is_paused = false ∧ MIN_DEPOSIT ≤ a := by
  unfold deposit_token at h
  split_ifs at h with h1 h2
  simp only [Except.ok.injEq] at h
  exact ⟨h.symm, by simpa using h1, by omega⟩

theorem sol_process_withdrawal_ok {s : State} {w rc a ts : Nat} {sigs : List Nat}
    {t : State} (h : process_withdrawal s w rc a ts sigs = .ok t) :
    t = { s with
      withdrawals := (w,
        { withdrawal_hash := w, recipient := rc, amount := a,
          processed := true, timestamp := ts }) :: s.withdrawals
      bridge := { s.bridge with
        total_withdrawn := s.bridge.total_withdrawn + a }
      events := s.events ++ [.withdrawalEvent w rc a ts] } ∧
    s.bridge.is_paused = false ∧
    s.bridge.guardian_threshold ≤ sigs.length ∧
    s.withdrawals.lookup w = none := by
  unfold process_withdrawal at h
  split_ifs at h with h1 h2 h3
  simp only [Except.ok.injEq] at h
  refine ⟨h.symm, by simpa using h1, by omega, ?_⟩
  exact Option.not_isSome_iff_eq_none.mp h3

theorem sol_add_guardian_ok {s : State} {c g ts : Nat} {t : State}
    (h : add_guardian s c g ts = .ok t) :
    t = { s with
      guardians := (g, { pubkey := g, is_active := true, added_at := ts })
        :: s.guardians
      bridge := { s.bridge with
        guardian_count := s.bridge.guardian_count + 1 }
      events := s.events ++ [.guardianAdded g c ts] } ∧
    c = s.bridge.authority := by
  unfold add_guardian at h
  split_ifs at h with h1
  simp only [Except.ok.injEq] at h
  exact ⟨h.symm, not_not.mp h1⟩

theorem sol_remove_guardian_ok {s : State} {c g ts : Nat} {t : State}
    (h : remove_guardian s c g ts = .ok t) :
    (∃ gd, s.guardians.lookup g = some gd ∧ gd.is_active = true ∧
      t = { s with
        guardians := (g, { gd with is_active := false }) :: s.guardians
        bridge := { s.bridge with
          guardian_count := s.bridge.guardian_count - 1 }
        events := s.events ++ [.guardianRemoved gd.pubkey c ts] }) ∧
    c = s.bridge.authority ∧ 1 ≤ s.bridge.guardian_count ∧
    s.bridge.guardian_threshold ≤ s.bridge.guardian_count - 1 := by
  unfold remove_guardian at h
  split at h
  · exact Except.noConfusion h
  next h1 =>
    split at h
    next hg =>
      exact Except.noConfusion h
    next gd hg =>
      split_ifs at h with h2 h3 h4
      simp only [Except.ok.injEq] at h
      exact ⟨⟨gd, hg, by simpa using h2, h.symm⟩, not_not.mp h1,
        by omega, h4⟩

theorem sol_update_threshold_ok {s : State} {c n ts : Nat} {t : State}
    (h : update_threshold s c n ts = .ok t) :
    t = { s with
      bridge := { s.bridge with guardian_threshold := n }
      events := s.events ++ [.thresholdUpdated n n ts] } ∧
    c = s.bridge.authority ∧ n ≤ s.bridge.guardian_count := by
  unfold update_threshold at h
  split_ifs at h with h1 h2
  simp only [Except.ok.injEq] at h
  exact ⟨h.symm, not_not.mp h1, h2⟩

theorem sol_pause_ok {s : State} {c : Nat} {t : State}
    (h : pause s c = .ok t) :
    t = { s with bridge := { s.bridge with is_paused := true } } ∧
    c = s.bridge.authority := by
  unfold pause at h
  split_ifs at h with h1
  simp only [Except.ok.injEq] at h
  exact ⟨h.symm, not_not.mp h1⟩

theorem sol_unpause_ok {s : State} {c : Nat} {t : State}
    (h : unpause s c = .ok t) :
    t = { s with bridge := { s.bridge with is_paused := false } } ∧
    c = s.bridge.authority := by
  unfold unpause at h
  split_ifs at h with h1
  simp only [Except.ok.injEq] at h
  exact ⟨h.symm, not_not.mp h1⟩

/-- The facts about one successful Solana instruction needed by the claims:
nonce behaviour, preservation of the quorum inequality, monotonicity of the
aggregate counters, and persistence of processed withdrawal hashes. -/
theorem sol_step_ok {s : State} {a : Action} {t : State} {r : Option Nat}
    (h : step s a = .ok (t, r)) :
    ((r = some s.bridge.deposit_nonce ∧
        t.bridge.deposit_nonce = s.bridge.deposit_nonce + 1) ∨
      (r = none ∧ t.bridge.deposit_nonce = s.bridge.deposit_nonce)) ∧
    (s.bridge.guardian_threshold ≤ s.bridge.guardian_count →
      t.bridge.guardian_threshold ≤ t.bridge.guardian_count) ∧
    s.bridge.total_deposited ≤ t.bridge.total_deposited ∧
    s.bridge.total_withdrawn ≤ t.bridge.total_withdrawn ∧
    (∀ x, (s.withdrawals.lookup x).isSome →
      (t.withdrawals.lookup x).isSome) := by
  cases a with
  | addGuardian c g ts =>
    simp only [step] at h
    split at h
    · exact Except.noConfusion h
    next u heq =>
      simp only [Except.ok.injEq, Prod.mk.injEq] at h
      obtain ⟨hu, -⟩ := sol_add_guardian_ok heq
      subst hu
      obtain ⟨ht, hr⟩ := h
      subst ht
      subst hr
      refine ⟨Or.inr ⟨rfl, rfl⟩, ?_, le_refl _, le_refl _, fun x hx => hx⟩
      intro hle
      simp only []
      omega
  | removeGuardian c g ts =>
    simp only [step] at h
    split at h
    · exact Except.noConfusion h
    next u heq =>
      simp only [Except.ok.injEq, Prod.mk.injEq] at h
      obtain ⟨⟨gd, -, -, hu⟩, -, hone, hquo⟩ := sol_remove_guardian_ok heq
      subst hu
      obtain ⟨ht, hr⟩ := h
      subst ht
      subst hr
      exact ⟨Or.inr ⟨rfl, rfl⟩, fun _ => hquo, le_refl _, le_refl _,
        fun x hx => hx⟩
  | depositSol d a cm ts =>
    simp only [step] at h
    split at h
    · exact Except.noConfusion h
    next u heq =>
      simp only [Except.ok.injEq, Prod.mk.injEq] at h
      obtain ⟨hu, -⟩ := deposit_sol_ok heq
      subst hu
      obtain ⟨ht, hr⟩ := h
      subst ht
      subst hr
      exact ⟨Or.inl ⟨rfl, rfl⟩, fun hle => hle, Nat.le_add_right _ _,
        le_refl _, fun x hx => hx⟩
  | depositToken d m a cm ts =>
    simp only [step] at h
    split at h
    · exact Except.noConfusion h
    next u heq =>
      simp only [Except.ok.injEq, Prod.mk.injEq] at h
      obtain ⟨hu, -⟩ := deposit_token_ok heq
      subst hu
      obtain ⟨ht, hr⟩ := h
      subst ht
      subst hr
      exact ⟨Or.inl ⟨rfl, rfl⟩, fun hle => hle, le_refl _, le_refl _,
        fun x hx => hx⟩
  | processWithdrawal w rc a ts sigs =>
    simp only [step] at h
    split at h
    · exact Except.noConfusion h
    next u heq =>
      simp only [Except.ok.injEq, Prod.mk.injEq] at h
      obtain ⟨hu, -⟩ := sol_process_withdrawal_ok heq
      subst hu
      obtain ⟨ht, hr⟩ := h
      subst ht
      subst hr
      refine ⟨Or.inr ⟨rfl, rfl⟩, fun hle => hle, le_refl _,
        Nat.le_add_right _ _, ?_⟩
      intro x hx
      by_cases hbeq : (x == w) = true <;> simp [List.lookup, hbeq, hx]
  | doPause c =>
    simp only [step] at h
    split at h
    · exact Except.noConfusion h
    next u heq =>
      simp only [Except.ok.injEq, Prod.mk.injEq] at h
      obtain ⟨hu, -⟩ := sol_pause_ok heq
      subst hu
      obtain ⟨ht, hr⟩ := h
      subst ht
      subst hr
      exact ⟨Or.inr ⟨rfl, rfl⟩, fun hle => hle, le_refl _, le_refl _,
        fun x hx => hx⟩
  | doUnpause c =>
    simp only [step] at h
    split at h
    · exact Except.noConfusion h
    next u heq =>
      simp only [Except.ok.injEq, Prod.mk.injEq] at h
      obtain ⟨hu, -⟩ := sol_unpause_ok heq
      subst hu
      obtain ⟨ht, hr⟩ := h
      subst ht
      subst hr
      exact ⟨Or.inr ⟨rfl, rfl⟩, fun hle => hle, le_refl _, le_refl _,
        fun x hx => hx⟩
  | updateThreshold c n ts =>
    simp only [step] at h
    split at h
    · exact Except.noConfusion h
    next u heq =>
      simp only [Except.ok.injEq, Prod.mk.injEq] at h
      obtain ⟨hu, -, hle⟩ := sol_update_threshold_ok heq
      subst hu
      obtain ⟨ht, hr⟩ := h
      subst ht
      subst hr
      exact ⟨Or.inr ⟨rfl, rfl⟩, fun _ => hle, le_refl _, le_refl _,
        fun x hx => hx⟩

/-- The nonces collected along a Solana run are the dense range starting at
the initial counter value (the SOL and token deposit paths share the one
counter), and the counter advances by exactly their number. -/
theorem sol_run_nonce_spec (acts : List Action) :
    ∀ s : State,
      (run s acts).1.bridge.deposit_nonce =
        s.bridge.deposit_nonce + (run s acts).2.length ∧
      (run s acts).2 = List.range' s.bridge.deposit_nonce
        (run s acts).2.length := by
  induction acts with
  | nil =>
    intro s
    simp [run]
  | cons a rest ih =>
    intro s
    cases hstep : step s a with
    | error e =>
      simp only [run, hstep]
      exact ih s
    | ok p =>
      obtain ⟨t, r⟩ := p
      obtain ⟨hnonce, -⟩ := sol_step_ok hstep
      cases r with
      | none =>
        obtain ⟨-, ht⟩ := hnonce.resolve_left (by rintro ⟨h1, -⟩; cases h1)
        simp only [run, hstep]
        constructor
        · rw [(ih t).1, ht]
        · conv_lhs => rw [(ih t).2]
          rw [ht]
      | some n0 =>
        obtain ⟨h1, ht⟩ := hnonce.resolve_right (by rintro ⟨h1, -⟩; cases h1)
        obtain rfl : n0 = s.bridge.deposit_nonce := by injection h1
        simp only [run, hstep, List.length_cons]
        constructor
        · rw [(ih t).1, ht]
          omega
        · rw [List.range'_succ]
          congr 1
          conv_lhs => rw [(ih t).2]
          rw [ht]

end Sol

theorem Near.run_withdrawals_mono (acts : List Action) :
    ∀ s : State, ∀ x ∈ s.processed_withdrawals,
      x ∈ ((run s acts).1).processed_withdrawals := by
  induction acts with
  | nil =>
    intro s x hx
    exact hx
  | cons a rest ih =>
    intro s x hx
    cases hstep : step s a with
    | error e =>
      simp only [run, hstep]
      exact ih s x hx
    | ok p =>
      obtain ⟨t, r⟩ := p
      obtain ⟨-, -, -, -, hw, -⟩ := near_step_ok hstep
      cases r with
      | none =>
        simp only [run, hstep]
        exact ih t x (hw x hx)
      | some n =>
        simp only [run, hstep]
        exact ih t x (hw x hx)

theorem Near.near_pw_replayed {u : State} {c2 w rc2 : String} {a2 : Nat}
    (hw : w ∈ u.processed_withdrawals) :
    (process_withdrawal u c2 w rc2 a2).isOk = false := by
  unfold process_withdrawal
  split_ifs with h1 h2 <;> rfl

theorem Near.near_pw_replayed_eq {u : State} {c2 w rc2 : String} {a2 : Nat}
    (hw : w ∈ u.processed_withdrawals) (hp : u.is_paused = false)
    (hc : c2 ∈ u.guardians) :
    process_withdrawal u c2 w rc2 a2 = .error .withdrawalAlreadyProcessed := by
  unfold process_withdrawal
  rw [if_neg (by simp [hp]), if_neg (not_not_intro hc), if_pos hw]

theorem Sol.sol_pw_replayed {u : State} {w rc2 a2 ts2 : Nat} {sigs2 : List Nat}
    (hw : (u.withdrawals.lookup w).isSome = true) :
    (process_withdrawal u w rc2 a2 ts2 sigs2).isOk = false := by
  unfold process_withdrawal
  split_ifs with h1 h2 <;> rfl

theorem Sol.sol_pw_replayed_eq {u : State} {w rc2 a2 ts2 : Nat}
    {sigs2 : List Nat} (hw : (u.withdrawals.lookup w).isSome = true)
    (hp : u.bridge.is_paused = false)
    (hs : u.bridge.guardian_threshold ≤ sigs2.length) :
    process_withdrawal u w rc2 a2 ts2 sigs2 =
      .error .withdrawalAlreadyProcessed := by
  unfold process_withdrawal
  rw [if_neg (by simp [hp]), if_neg (by omega), if_pos hw]

/-- Claim C1 (code bug evaluated at the failing input): the claim requires a
second deposit with an already-used commitment to fail with CommitmentReused
on every deposit entry point, but the Solana program keeps no commitment
replay set (its Deposit PDA is keyed by the nonce).  Two deposit_sol calls
with the identical commitment 42 both succeed: the bridge ends with two
journal entries, nonce counter 2, and total_deposited counted twice.  The
NEAR deposit entry point does enforce the check. -/
theorem sol_deposit_reused_commitment_accepted :
    (sol_double_deposit_same_commitment.map (fun s =>
      (s.bridge.total_deposited, s.bridge.deposit_nonce,
        s.deposits.length))) = .ok (2 * Sol.MIN_DEPOSIT, 2, 2) := rfl

/-- Claim C2 counterexample: on a freshly initialized Solana bridge with
guardian_threshold 1 and an empty guardian set, process_withdrawal succeeds
given one arbitrary signature blob.  No account is a guardian (the guardian
set is empty), so neither arm of the claim's authorization condition can
hold - there is no guardian caller and no possible valid approval by a
current guardian - yet the call succeeds. -/
theorem sol_withdrawal_without_guardian_approvals :
    (Sol.process_withdrawal (Sol.init_bridge 7 9 1) 5 11 100 77
      [123]).isOk = true ∧
    (Sol.init_bridge 7 9 1).guardians = [] ∧
    (Sol.init_bridge 7 9 1).bridge.guardian_threshold = 1 :=
  ⟨rfl, rfl, rfl⟩

/-- Claim C2 (amended): the NEAR process_withdrawal succeeds only when the
caller is a current guardian and, when the bridge is not paused, rejects any
non-guardian caller with the NotGuardian error; the Solana process_withdrawal
succeeds only when the number of supplied signature blobs reaches
guardian_threshold and, when not paused, rejects shorter lists with
InsufficientSignatures - it checks nothing else about the blobs (signature
verification is an explicit TODO in the source), so no validity,
distinctness, or guardian-membership property of the approvals is enforced.
A rejected call returns only the error, which models the host ledger rolling
back every write. -/
theorem withdrawal_authorization_policy :
    (∀ (s : Near.State) (c w rc : String) (a : Nat) (t : Near.State),
      Near.process_withdrawal s c w rc a = .ok t → c ∈ s.guardians) ∧
    (∀ (s : Near.State) (c w rc : String) (a : Nat),
      s.is_paused = false → c ∉ s.guardians →
      Near.process_withdrawal s c w rc a = .error .notGuardian) ∧
    (∀ (s : Sol.State) (w rc a ts : Nat) (sigs : List Nat) (t : Sol.State),
      Sol.process_withdrawal s w rc a ts sigs = .ok t →
      s.bridge.guardian_threshold ≤ sigs.length) ∧
    (∀ (s : Sol.State) (w rc a ts : Nat) (sigs : List Nat),
      s.bridge.is_paused = false →
      sigs.length < s.bridge.guardian_threshold →
      Sol.process_withdrawal s w rc a ts sigs =
        .error .insufficientSignatures) := by
  refine ⟨?_, ?_, ?_, ?_⟩
  · intro s c w rc a t h
    exact (Near.near_process_withdrawal_ok h).2.2.1
  · intro s c w rc a hp hc
    unfold Near.process_withdrawal
    rw [if_neg (by simp [hp]), if_pos hc]
  · intro s w rc a ts sigs t h
    exact (Sol.sol_process_withdrawal_ok h).2.2.1
  · intro s w rc a ts sigs hp hsig
    unfold Sol.process_withdrawal
    rw [if_neg (by simp [hp]), if_pos hsig]

/-- Witness for the amended C2 theorem: a non-guardian caller on a fresh
unpaused NEAR bridge is rejected with NotGuardian. -/
theorem withdrawal_authorization_policy_witness :
    (Near.new "o" "h" 1).is_paused = false ∧
    "x" ∉ (Near.new "o" "h" 1).guardians ∧
    Near.process_withdrawal (Near.new "o" "h" 1) "x" "w" "r" 5 =
      .error .notGuardian :=
  ⟨rfl, by decide,
    withdrawal_authorization_policy.2.1 (Near.new "o" "h" 1) "x" "w" "r" 5
      rfl (by decide)⟩

/-- Claim C3: a claim identifier releases funds at most once.  On both
chains, after a successful process_withdrawal of claim w and amount a,
total_withdrawn has grown by exactly a, and every later attempt on the same
w fails: on NEAR no second call can succeed, and a second call by a guardian
while unpaused fails precisely with WithdrawalAlreadyProcessed (NEAR keeps w
in its replay set across any further call sequence); on Solana no second
call can succeed, and one meeting the pause and threshold checks fails
precisely with WithdrawalAlreadyProcessed.  A failed second call returns
only the error, so total_withdrawn grows by a exactly once across the two
calls. -/
theorem withdrawal_replay_protection :
    (∀ (s : Near.State) (c w rc : String) (a : Nat) (t : Near.State),
      Near.process_withdrawal s c w rc a = .ok t →
      t.total_withdrawn = s.total_withdrawn + a ∧
      (∀ (c2 rc2 : String) (a2 : Nat),
        (Near.process_withdrawal t c2 w rc2 a2).isOk = false) ∧
      (∀ (c2 rc2 : String) (a2 : Nat), c2 ∈ t.guardians →
        Near.process_withdrawal t c2 w rc2 a2 =
          .error .withdrawalAlreadyProcessed) ∧
      (∀ acts : List Near.Action,
        w ∈ ((Near.run t acts).1).processed_withdrawals)) ∧
    (∀ (s : Sol.State) (w rc a ts : Nat) (sigs : List Nat) (t : Sol.State),
      Sol.process_withdrawal s w rc a ts sigs = .ok t →
      t.bridge.total_withdrawn = s.bridge.total_withdrawn + a ∧
      (∀ (rc2 a2 ts2 : Nat) (sigs2 : List Nat),
        (Sol.process_withdrawal t w rc2 a2 ts2 sigs2).isOk = false) ∧
      (∀ (rc2 a2 ts2 : Nat) (sigs2 : List Nat),
        t.bridge.guardian_threshold ≤ sigs2.length →
        Sol.process_withdrawal t w rc2 a2 ts2 sigs2 =
          .error .withdrawalAlreadyProcessed)) := by
  constructor
  · intro s c w rc a t h
    obtain ⟨ht, hp, hcg, hnw⟩ := Near.near_process_withdrawal_ok h
    subst ht
    have hw : w ∈ (w :: s.processed_withdrawals) := List.mem_cons_self w _
    refine ⟨rfl, ?_, ?_, ?_⟩
    · intro c2 rc2 a2
      exact Near.near_pw_replayed hw
    · intro c2 rc2 a2 hc2
      exact Near.near_pw_replayed_eq hw hp hc2
    · intro acts
      exact Near.run_withdrawals_mono acts _ w hw
  · intro s w rc a ts sigs t h
    obtain ⟨ht, hp, hsig, hnw⟩ := Sol.sol_process_withdrawal_ok h
    have hw : (t.withdrawals.lookup w).isSome = true := by
      rw [ht]
      simp [List.lookup]
    have hpt : t.bridge.is_paused = false := by
      rw [ht]
      exact hp
    refine ⟨by rw [ht], ?_, ?_⟩
    · intro rc2 a2 ts2 sigs2
      exact Sol.sol_pw_replayed hw
    · intro rc2 a2 ts2 sigs2 hs2
      exact Sol.sol_pw_replayed_eq hw hpt hs2

/-- Witness for C3 at a concrete input: guardian g processes claim w of
amount 5 on a one-guardian NEAR bridge, and the repeated claim is rejected
with WithdrawalAlreadyProcessed. -/
theorem withdrawal_replay_protection_witness :
    Near.process_withdrawal near_guarded "g" "w" "r" 5 =
      .ok near_guarded_after ∧
    Near.process_withdrawal near_guarded_after "g" "w" "r2" 7 =
      .error .withdrawalAlreadyProcessed :=
  have h : Near.process_withdrawal near_guarded "g" "w" "r" 5 =
      .ok near_guarded_after := rfl
  ⟨h, (withdrawal_replay_protection.1 near_guarded "g" "w" "r" 5
    near_guarded_after h).2.2.1 "g" "r2" 7 (by decide)⟩

/-- Claim C4 counterexample: neither initializer establishes the quorum
invariant.  NEAR new and Solana initialize accept an arbitrary threshold
while the guardian set starts empty, so right after initialization with
threshold 1 the guardian count 0 is below the threshold (the repository's
own init test builds exactly this state). -/
theorem init_violates_quorum_invariant :
    (Near.new "o" "h" 1).guardians.length <
      (Near.new "o" "h" 1).guardian_threshold ∧
    (Sol.init_bridge 7 9 1).bridge.guardian_count <
      (Sol.init_bridge 7 9 1).bridge.guardian_threshold :=
  ⟨by decide, by decide⟩

/-- Claim C4 (amended): threshold ≤ guardian count is enforced by every
successful remove-guardian and set-threshold operation on both chains
(a violating call is rejected - NEAR with the below-threshold or
threshold-too-high errors the spec names QuorumViolation - returning only
the error, so the guardian set and threshold are unchanged), and every
successful operation preserves the invariant when it already holds; but
initialization does not establish it: the constructors accept any threshold
over the initially empty guardian set, so the invariant can fail after
initialization and until enough guardians are added. -/
theorem quorum_invariant_enforcement :
    (∀ (s : Near.State) (c g : String) (t : Near.State),
      Near.remove_guardian s c g = .ok t →
      t.guardian_threshold ≤ t.guardians.length) ∧
    (∀ (s : Near.State) (c : String) (n : Nat) (t : Near.State),
      Near.update_threshold s c n = .ok t →
      t.guardian_threshold ≤ t.guardians.length) ∧
    (∀ (s : Near.State) (a : Near.Action) (t : Near.State) (r : Option Nat),
      Near.step s a = .ok (t, r) →
      s.guardian_threshold ≤ s.guardians.length →
      t.guardian_threshold ≤ t.guardians.length) ∧
    (∀ (s : Near.State) (c g : String), c = s.owner_id → g ∈ s.guardians →
      s.guardians.length ≤ s.guardian_threshold →
      Near.remove_guardian s c g = .error .insufficientGuardians) ∧
    (∀ (s : Near.State) (c : String) (n : Nat), c = s.owner_id →
      s.guardians.length < n →
      Near.update_threshold s c n = .error .thresholdTooHigh) ∧
    (∀ (s : Sol.State) (c g ts : Nat) (t : Sol.State),
      Sol.remove_guardian s c g ts = .ok t →
      t.bridge.guardian_threshold ≤ t.bridge.guardian_count) ∧
    (∀ (s : Sol.State) (c n ts : Nat) (t : Sol.State),
      Sol.update_threshold s c n ts = .ok t →
      t.bridge.guardian_threshold ≤ t.bridge.guardian_count) ∧
    (∀ (s : Sol.State) (c n ts : Nat), c = s.bridge.authority →
      s.bridge.guardian_count < n →
      Sol.update_threshold s c n ts = .error .thresholdTooHigh) := by
  refine ⟨?_, ?_, ?_, ?_, ?_, ?_, ?_, ?_⟩
  · intro s c g t h
    obtain ⟨ht, -, hmem, hlt⟩ := Near.near_remove_guardian_ok h
    subst ht
    simp only [List.length_erase_of_mem hmem]
    omega
  · intro s c n t h
    obtain ⟨ht, -, hle⟩ := Near.near_update_threshold_ok h
    subst ht
    exact hle
  · intro s a t r h
    exact (Near.near_step_ok h).2.1
  · intro s c g hc hg hlen
    unfold Near.remove_guardian
    rw [if_neg (not_not_intro hc), if_neg (not_not_intro hg),
      if_pos (by omega)]
  · intro s c n hc hn
    unfold Near.update_threshold
    rw [if_neg (not_not_intro hc), if_pos (by omega)]
  · intro s c g ts t h
    obtain ⟨⟨gd, -, -, ht⟩, -, hone, hquo⟩ := Sol.sol_remove_guardian_ok h
    subst ht
    exact hquo
  · intro s c n ts t h
    obtain ⟨ht, -, hle⟩ := Sol.sol_update_threshold_ok h
    subst ht
    exact hle
  · intro s c n ts hc hn
    unfold Sol.update_threshold
    rw [if_neg (not_not_intro hc), if_pos (by omega)]

/-- Witness for the amended C4 theorem: removing the only guardian of the
one-guardian threshold-1 NEAR bridge is rejected with the below-threshold
error. -/
theorem quorum_invariant_enforcement_witness :
    "o" = near_guarded.owner_id ∧ "g" ∈ near_guarded.guardians ∧
    near_guarded.guardians.length ≤ near_guarded.guardian_threshold ∧
    Near.remove_guardian near_guarded "o" "g" =
      .error .insufficientGuardians :=
  ⟨rfl, by decide, by decide,
    quorum_invariant_enforcement.2.2.2.1 near_guarded "o" "g" rfl
      (by decide) (by decide)⟩

/-- Claim C5: nonce density.  Starting from initialization, along any call
sequence on either chain (any mix of successful and failed deposits,
withdrawals and admin calls), the nonces assigned to the successful deposits
are exactly 0, 1, ..., N-1 in call order: the counter starts at 0, each
successful deposit advances it by exactly one, failed attempts consume
nothing, and no nonce repeats. -/
theorem deposit_nonce_density :
    (∀ (o h : String) (th : Nat) (acts : List Near.Action),
      (Near.run (Near.new o h th) acts).2 =
        List.range (Near.run (Near.new o h th) acts).2.length) ∧
    (∀ (au hub th : Nat) (acts : List Sol.Action),
      (Sol.run (Sol.init_bridge au hub th) acts).2 =
        List.range (Sol.run (Sol.init_bridge au hub th) acts).2.length) := by
  constructor
  · intro o h th acts
    rw [List.range_eq_range']
    exact (Near.near_run_nonce_spec acts (Near.new o h th)).2
  · intro au hub th acts
    rw [List.range_eq_range']
    exact (Sol.sol_run_nonce_spec acts (Sol.init_bridge au hub th)).2

/-- Claim C6 counterexample: the Solana token deposit path checks only the
lower bound, so a token deposit of MAX_DEPOSIT + 1 succeeds instead of
failing with the out-of-range error. -/
theorem sol_deposit_token_above_max_accepted :
    (Sol.deposit_token (Sol.init_bridge 7 9 0) 1 2 (Sol.MAX_DEPOSIT + 1)
      42 100).isOk = true ∧
    Sol.MAX_DEPOSIT < Sol.MAX_DEPOSIT + 1 :=
  ⟨rfl, by omega⟩

/-- Claim C6 (amended): the NEAR deposit and Solana deposit_sol entry points
succeed only when MIN_DEPOSIT ≤ amount ≤ MAX_DEPOSIT and (when unpaused)
fail with the amount-too-small or amount-too-large error otherwise,
returning only the error so no state changes; the Solana deposit_token entry
point enforces only the lower bound: it succeeds for any amount of at least
MIN_DEPOSIT, with no upper limit. -/
theorem deposit_amount_bounds :
    (∀ (s : Near.State) (c : String) (att ts : Nat) (cm : String)
      (n : Nat) (t : Near.State),
      Near.deposit s c att ts cm = .ok (n, t) →
      Near.MIN_DEPOSIT ≤ att ∧ att ≤ Near.MAX_DEPOSIT) ∧
    (∀ (s : Near.State) (c : String) (att ts : Nat) (cm : String),
      s.is_paused = false → att < Near.MIN_DEPOSIT →
      Near.deposit s c att ts cm = .error .amountTooSmall) ∧
    (∀ (s : Near.State) (c : String) (att ts : Nat) (cm : String),
      s.is_paused = false → Near.MAX_DEPOSIT < att →
      Near.deposit s c att ts cm = .error .amountTooLarge) ∧
    (∀ (s : Sol.State) (d a cm ts : Nat) (t : Sol.State),
      Sol.deposit_sol s d a cm ts = .ok t →
      Sol.MIN_DEPOSIT ≤ a ∧ a ≤ Sol.MAX_DEPOSIT) ∧
    (∀ (s : Sol.State) (d a cm ts : Nat),
      s.bridge.is_paused = false → a < Sol.MIN_DEPOSIT →
      Sol.deposit_sol s d a cm ts = .error .amountTooSmall) ∧
    (∀ (s : Sol.State) (d a cm ts : Nat),
      s.bridge.is_paused = false → Sol.MAX_DEPOSIT < a →
      Sol.deposit_sol s d a cm ts = .error .amountTooLarge) ∧
    (∀ (s : Sol.State) (d m a cm ts : Nat) (t : Sol.State),
      Sol.deposit_token s d m a cm ts = .ok t → Sol.MIN_DEPOSIT ≤ a) ∧
    (∀ (s : Sol.State) (d m a cm ts : Nat),
      s.bridge.is_paused = false → a < Sol.MIN_DEPOSIT →
      Sol.deposit_token s d m a cm ts = .error .amountTooSmall) := by
  refine ⟨?_, ?_, ?_, ?_, ?_, ?_, ?_, ?_⟩
  · intro s c att ts cm n t h
    obtain ⟨-, -, -, hmin, hmax, -⟩ := Near.near_deposit_ok h
    exact ⟨hmin, hmax⟩
  · intro s c att ts cm hp hsmall
    unfold Near.deposit
    rw [if_neg (by simp [hp]), if_pos hsmall]
  · intro s c att ts cm hp hlarge
    unfold Near.deposit
    have hcc : Near.MIN_DEPOSIT ≤ Near.MAX_DEPOSIT := by decide
    rw [if_neg (by simp [hp]), if_neg (by omega), if_pos hlarge]
  · intro s d a cm ts t h
    obtain ⟨-, -, hmin, hmax⟩ := Sol.deposit_sol_ok h
    exact ⟨hmin, hmax⟩
  · intro s d a cm ts hp hsmall
    unfold Sol.deposit_sol
    rw [if_neg (by simp [hp]), if_pos hsmall]
  · intro s d a cm ts hp hlarge
    unfold Sol.deposit_sol
    have hcc : Sol.MIN_DEPOSIT ≤ Sol.MAX_DEPOSIT := by decide
    rw [if_neg (by simp [hp]), if_neg (by omega), if_pos hlarge]
  · intro s d m a cm ts t h
    exact (Sol.deposit_token_ok h).2.2
  · intro s d m a cm ts hp hsmall
    unfold Sol.deposit_token
    rw [if_neg (by simp [hp]), if_pos hsmall]

/-- Witness for the amended C6 theorem: a 5-yoctoNEAR deposit on the fresh
unpaused NEAR bridge is rejected as too small. -/
theorem deposit_amount_bounds_witness :
    (Near.new "o" "h" 1).is_paused = false ∧ 5 < Near.MIN_DEPOSIT ∧
    Near.deposit (Near.new "o" "h" 1) "d" 5 99 "c1" =
      .error .amountTooSmall :=
  ⟨rfl, by decide,
    deposit_amount_bounds.2.1 (Near.new "o" "h" 1) "d" 5 99 "c1" rfl
      (by decide)⟩

/-- Claim C7: pause gating.  With the pause flag set, every user entry point
(NEAR deposit and process_withdrawal; Solana deposit_sol, deposit_token and
process_withdrawal) fails with BridgePaused, returning only the error so no
state changes; and every admin entry point (NEAR add/remove guardian,
update_threshold, pause, unpause, transfer_ownership; Solana add/remove
guardian, update_threshold, pause, unpause) succeeds or fails identically in
either pause state - its outcome never depends on the pause flag. -/
theorem pause_gating :
    (∀ (s : Near.State) (c : String) (att ts : Nat) (cm : String),
      Near.deposit { s with is_paused := true } c att ts cm =
        .error .bridgePaused) ∧
    (∀ (s : Near.State) (c w rc : String) (a : Nat),
      Near.process_withdrawal { s with is_paused := true } c w rc a =
        .error .bridgePaused) ∧
    (∀ (s : Sol.State) (d a cm ts : Nat),
      Sol.deposit_sol (Sol.set_paused s true) d a cm ts =
        .error .bridgePaused) ∧
    (∀ (s : Sol.State) (d m a cm ts : Nat),
      Sol.deposit_token (Sol.set_paused s true) d m a cm ts =
        .error .bridgePaused) ∧
    (∀ (s : Sol.State) (w rc a ts : Nat) (sigs : List Nat),
      Sol.process_withdrawal (Sol.set_paused s true) w rc a ts sigs =
        .error .bridgePaused) ∧
    (∀ (s : Near.State) (b : Bool) (c g : String),
      (Near.add_guardian { s with is_paused := b } c g).isOk =
        (Near.add_guardian s c g).isOk) ∧
    (∀ (s : Near.State) (b : Bool) (c g : String),
      (Near.remove_guardian { s with is_paused := b } c g).isOk =
        (Near.remove_guardian s c g).isOk) ∧
    (∀ (s : Near.State) (b : Bool) (c : String) (n : Nat),
      (Near.update_threshold { s with is_paused := b } c n).isOk =
        (Near.update_threshold s c n).isOk) ∧
    (∀ (s : Near.State) (b : Bool) (c : String),
      (Near.pause { s with is_paused := b } c).isOk =
        (Near.pause s c).isOk) ∧
    (∀ (s : Near.State) (b : Bool) (c : String),
      (Near.unpause { s with is_paused := b } c).isOk =
        (Near.unpause s c).isOk) ∧
    (∀ (s : Near.State) (b : Bool) (c o2 : String),
      (Near.transfer_ownership { s with is_paused := b } c o2).isOk =
        (Near.transfer_ownership s c o2).isOk) ∧
    (∀ (s : Sol.State) (b : Bool) (c g ts : Nat),
      (Sol.add_guardian (Sol.set_paused s b) c g ts).isOk =
        (Sol.add_guardian s c g ts).isOk) ∧
    (∀ (s : Sol.State) (b : Bool) (c g ts : Nat),
      (Sol.remove_guardian (Sol.set_paused s b) c g ts).isOk =
        (Sol.remove_guardian s c g ts).isOk) ∧
    (∀ (s : Sol.State) (b : Bool) (c n ts : Nat),
      (Sol.update_threshold (Sol.set_paused s b) c n ts).isOk =
        (Sol.update_threshold s c n ts).isOk) ∧
    (∀ (s : Sol.State) (b : Bool) (c : Nat),
      (Sol.pause (Sol.set_paused s b) c).isOk = (Sol.pause s c).isOk) ∧
    (∀ (s : Sol.State) (b : Bool) (c : Nat),
      (Sol.unpause (Sol.set_paused s b) c).isOk = (Sol.unpause s c).isOk) := by
  refine ⟨?_, ?_, ?_, ?_, ?_, ?_, ?_, ?_, ?_, ?_, ?_, ?_, ?_, ?_, ?_, ?_⟩
  · intro s c att ts cm
    rfl
  · intro s c w rc a
    rfl
  · intro s d a cm ts
    rfl
  · intro s d m a cm ts
    rfl
  · intro s w rc a ts sigs
    rfl
  · intro s b c g
    unfold Near.add_guardian
    dsimp only
    split_ifs <;> rfl
  · intro s b c g
    unfold Near.remove_guardian
    dsimp only
    split_ifs <;> rfl
  · intro s b c n
    unfold Near.update_threshold
    dsimp only
    split_ifs <;> rfl
  · intro s b c
    unfold Near.pause
    dsimp only
  · intro s b c
    unfold Near.unpause
    dsimp only
  · intro s b c o2
    unfold Near.transfer_ownership
    dsimp only
    split_ifs <;> rfl
  · intro s b c g ts
    unfold Sol.add_guardian Sol.set_paused
    dsimp only
    split_ifs <;> rfl
  · intro s b c g ts
    unfold Sol.remove_guardian Sol.set_paused
    dsimp only
    cases hg : s.guardians.lookup g with
    | none => dsimp only
    | some gd =>
      dsimp only
      split_ifs <;> rfl
  · intro s b c n ts
    unfold Sol.update_threshold Sol.set_paused
    dsimp only
    split_ifs <;> rfl
  · intro s b c
    unfold Sol.pause Sol.set_paused
    dsimp only
  · intro s b c
    unfold Sol.unpause Sol.set_paused
    dsimp only

/-- Claim C8 counterexample: a successful Solana token deposit of
MIN_DEPOSIT on a fresh bridge leaves total_deposited at 0, so the claim
that every successful deposit entry point raises total_deposited by exactly
the deposited amount is false for deposit_token. -/
theorem sol_deposit_token_total_deposited_unchanged :
    ((Sol.deposit_token (Sol.init_bridge 7 9 0) 1 2 Sol.MIN_DEPOSIT
      42 100).map (fun s => s.bridge.total_deposited)) = .ok 0 ∧
    0 < Sol.MIN_DEPOSIT :=
  ⟨rfl, by decide⟩

/-- Claim C8 (amended): total_deposited and total_withdrawn never decrease
across any operation on either chain; in the single atomic step of each
successful operation, NEAR deposit raises total_deposited by exactly the
attached amount together with the commitment marking and the journal append,
NEAR and Solana process_withdrawal raise total_withdrawn by exactly the
withdrawn amount together with the replay-set marking, and Solana
deposit_sol raises total_deposited by exactly the amount together with the
journal append; the exception is Solana deposit_token, which advances only
the nonce and leaves total_deposited unchanged (the counter tracks SOL
only). -/
theorem aggregate_counter_updates :
    (∀ (s : Near.State) (a : Near.Action) (t : Near.State) (r : Option Nat),
      Near.step s a = .ok (t, r) →
      s.total_deposited ≤ t.total_deposited ∧
      s.total_withdrawn ≤ t.total_withdrawn) ∧
    (∀ (s : Near.State) (c : String) (att ts : Nat) (cm : String)
      (n : Nat) (t : Near.State),
      Near.deposit s c att ts cm = .ok (n, t) →
      t.total_deposited = s.total_deposited + att ∧
      t.total_withdrawn = s.total_withdrawn ∧
      t.processed_deposits = cm :: s.processed_deposits ∧
      ∃ d : Near.Deposit, t.deposits = (s.deposit_nonce, d) :: s.deposits ∧
        d.amount = att) ∧
    (∀ (s : Near.State) (c w rc : String) (a : Nat) (t : Near.State),
      Near.process_withdrawal s c w rc a = .ok t →
      t.total_withdrawn = s.total_withdrawn + a ∧
      t.total_deposited = s.total_deposited ∧
      t.processed_withdrawals = w :: s.processed_withdrawals) ∧
    (∀ (s : Sol.State) (a : Sol.Action) (t : Sol.State) (r : Option Nat),
      Sol.step s a = .ok (t, r) →
      s.bridge.total_deposited ≤ t.bridge.total_deposited ∧
      s.bridge.total_withdrawn ≤ t.bridge.total_withdrawn) ∧
    (∀ (s : Sol.State) (d a cm ts : Nat) (t : Sol.State),
      Sol.deposit_sol s d a cm ts = .ok t →
      t.bridge.total_deposited = s.bridge.total_deposited + a ∧
      t.bridge.total_withdrawn = s.bridge.total_withdrawn ∧
      ∃ dep : Sol.Deposit,
        t.deposits = (s.bridge.deposit_nonce, dep) :: s.deposits ∧
        dep.amount = a) ∧
    (∀ (s : Sol.State) (d m a cm ts : Nat) (t : Sol.State),
      Sol.deposit_token s d m a cm ts = .ok t →
      t.bridge.total_deposited = s.bridge.total_deposited ∧
      t.bridge.deposit_nonce = s.bridge.deposit_nonce + 1) ∧
    (∀ (s : Sol.State) (w rc a ts : Nat) (sigs : List Nat) (t : Sol.State),
      Sol.process_withdrawal s w rc a ts sigs = .ok t →
      t.bridge.total_withdrawn = s.bridge.total_withdrawn + a ∧
      t.bridge.total_deposited = s.bridge.total_deposited ∧
      ∃ wd : Sol.Withdrawal, t.withdrawals = (w, wd) :: s.withdrawals ∧
        wd.amount = a ∧ wd.processed = true) := by
  refine ⟨?_, ?_, ?_, ?_, ?_, ?_, ?_⟩
  · intro s a t r h
    obtain ⟨-, -, h1, h2, -⟩ := Near.near_step_ok h
    exact ⟨h1, h2⟩
  · intro s c att ts cm n t h
    obtain ⟨-, ht, -, -, -, -⟩ := Near.near_deposit_ok h
    subst ht
    exact ⟨rfl, rfl, rfl, ⟨_, rfl, rfl⟩⟩
  · intro s c w rc a t h
    obtain ⟨ht, -, -, -⟩ := Near.near_process_withdrawal_ok h
    subst ht
    exact ⟨rfl, rfl, rfl⟩
  · intro s a t r h
    obtain ⟨-, -, h1, h2, -⟩ := Sol.sol_step_ok h
    exact ⟨h1, h2⟩
  · intro s d a cm ts t h
    obtain ⟨ht, -, -, -⟩ := Sol.deposit_sol_ok h
    subst ht
    exact ⟨rfl, rfl, ⟨_, rfl, rfl⟩⟩
  · intro s d m a cm ts t h
    obtain ⟨ht, -, -⟩ := Sol.deposit_token_ok h
    subst ht
    exact ⟨rfl, rfl⟩
  · intro s w rc a ts sigs t h
    obtain ⟨ht, -, -, -⟩ := Sol.sol_process_withdrawal_ok h
    subst ht
    exact ⟨rfl, rfl, ⟨_, rfl, rfl, rfl⟩⟩

/-- Witness for the amended C8 theorem: the first NEAR deposit of
MIN_DEPOSIT raises total_deposited from 0 to MIN_DEPOSIT in the same step
that records commitment c1 and appends journal entry 0. -/
theorem aggregate_counter_updates_witness :
    Near.deposit (Near.new "o" "h" 1) "d" Near.MIN_DEPOSIT 99 "c1" =
      .ok (0, near_after_deposit) ∧
    near_after_deposit.total_deposited =
      (Near.new "o" "h" 1).total_deposited + Near.MIN_DEPOSIT :=
  have h : Near.deposit (Near.new "o" "h" 1) "d" Near.MIN_DEPOSIT 99 "c1" =
      .ok (0, near_after_deposit) := rfl
  ⟨h, (aggregate_counter_updates.2.1 (Near.new "o" "h" 1) "d"
    Near.MIN_DEPOSIT 99 "c1" 0 near_after_deposit h).1⟩

/-- Claim C9 (code bug evaluated at the failing input): on the Solana
bridge initialized with threshold 0, after adding one guardian and raising
the threshold to 1, exactly one ThresholdUpdated event is appended, but its
old_threshold field reads 1 - the new value - although the threshold in
force before the update was 0: the handler overwrites
bridge.guardian_threshold before building the event from it.  (The NEAR
update_threshold emits no structured threshold event at all, only a plain
log line.) -/
theorem sol_threshold_event_reports_new_as_old :
    (sol_threshold_update_run.map (fun s => s.events)) =
      .ok [.guardianAdded 21 7 50, .thresholdUpdated 1 1 60] ∧
    ((Sol.add_guardian (Sol.init_bridge 7 9 0) 7 21 50).map
      (fun s => s.bridge.guardian_threshold)) = .ok 0 :=
  ⟨rfl, rfl⟩

/-- Claim C10: in every reachable NEAR state, get_deposit returns none for
every nonce at or above the current deposit_nonce counter; and whenever a
deposit call succeeds returning nonce n, then after it - and after any
further call sequence - get_deposit n returns exactly the record whose
depositor is the caller, whose commitment and amount are the call's
arguments, whose nonce is n, and whose processed flag is false. -/
theorem near_get_deposit_spec :
    ∀ s : Near.State, Near.Reachable s →
      (∀ m, s.deposit_nonce ≤ m → Near.get_deposit s m = none) ∧
      (∀ (c : String) (att ts : Nat) (cm : String) (n : Nat)
        (t : Near.State),
        Near.deposit s c att ts cm = .ok (n, t) →
        ∀ acts : List Near.Action,
          Near.get_deposit ((Near.run t acts).1) n =
            some { depositor := c, commitment := cm, amount := att,
                   nonce := n, timestamp := ts, processed := false }) := by
  intro s hreach
  have hb := Near.reachable_nonceBound hreach
  constructor
  · intro m hm
    exact Near.nonceBound_get_deposit_none hb hm
  · intro c att ts cm n t h acts
    obtain ⟨hn, ht, -, -, -, -⟩ := Near.near_deposit_ok h
    subst hn
    have hbt : Near.NonceBound t := by
      rw [ht]
      intro p hp
      rcases List.mem_cons.mp hp with hhead | htail
      · subst hhead
        exact Nat.lt_succ_self _
      · exact Nat.lt_succ_of_lt (hb p htail)
    have hlt : s.deposit_nonce < t.deposit_nonce := by
      rw [ht]
      exact Nat.lt_succ_self _
    have hpres := (Near.run_invariants acts t hbt).2.2.1 s.deposit_nonce hlt
    unfold Near.get_deposit
    rw [hpres, ht]
    simp [List.lookup]

/-- Witness for C10: the freshly initialized NEAR state is reachable and
get_deposit 0 on it returns none. -/
theorem near_get_deposit_spec_witness :
    Near.Reachable (Near.new "o" "h" 1) ∧
    Near.get_deposit (Near.new "o" "h" 1) 0 = none :=
  ⟨⟨"o", "h", 1, [], rfl⟩,
    (near_get_deposit_spec (Near.new "o" "h" 1) ⟨"o", "h", 1, [], rfl⟩).1 0
      (Nat.le_refl 0)⟩
